import Mathlib

/-!
Verification of the Nexus MCP engine (Go sources `internal/mcp/server.go`,
`internal/mcp/types.go` and the MCP client file) against its
natural-language specification.  Go strings are embedded as `List Char`,
Go maps as association lists with Go-map insert/delete/lookup semantics,
and each handler as a pure function on an explicit server / connection
state.  Fallible operations return `Except` (error message as in the
corresponding `fmt.Errorf` call) and transport / channel outcomes are made
explicit parameters.
-/

namespace Nexus

/-- Go strings, embedded as lists of characters. -/
abbrev Str := List Char

/-! ### Go map operations on association lists

Go maps have unique keys; `mapInsert` overwrites the entry for an existing
key and otherwise appends, `mapDelete` removes the entry for a key, and
`mapLookup` is the comma-ok read.  These model `m[k] = v`, `delete(m, k)`
and `v, ok := m[k]`. -/

/-- Go map read `v, ok := m[k]`. -/
def mapLookup {κ α : Type} [DecidableEq κ] (m : List (κ × α)) (k : κ) : Option α :=
  match m with
  | [] => none
  | e :: rest => if e.1 = k then some e.2 else mapLookup rest k

/-- Go map write `m[k] = v`: overwrite if the key is present, append otherwise. -/
def mapInsert {κ α : Type} [DecidableEq κ] (m : List (κ × α)) (k : κ) (v : α) :
    List (κ × α) :=
  match m with
  | [] => [(k, v)]
  | e :: rest => if e.1 = k then (k, v) :: rest else e :: mapInsert rest k v

/-- Go map delete `delete(m, k)`. -/
def mapDelete {κ α : Type} [DecidableEq κ] (m : List (κ × α)) (k : κ) : List (κ × α) :=
  match m with
  | [] => []
  | e :: rest => if e.1 = k then mapDelete rest k else e :: mapDelete rest k

/-- Number of entries of the table carrying a given key. -/
def countKey {κ α : Type} [DecidableEq κ] (m : List (κ × α)) (k : κ) : Nat :=
  match m with
  | [] => 0
  | e :: rest => (if e.1 = k then 1 else 0) + countKey rest k

/-! ### Dynamic values

Go `interface{}` payloads (resource metadata, prompt variable values,
tool-call arguments) are embedded as a small inductive of JSON-like
values; `goFormat` is the `fmt.Sprintf("%v", value)` string form used by
prompt rendering. -/

/-- Embedding of the Go `interface{}` values reaching this engine. -/
inductive GoValue : Type
  | vStr (s : Str)
  | vInt (n : Int)
  | vBool (b : Bool)
  | vNull
deriving DecidableEq

/-- String form of a value, as produced by the format verb `%v`. -/
def goFormat : GoValue → Str
  | .vStr s => s
  | .vInt n => (toString n).toList
  | .vBool true => "true".toList
  | .vBool false => "false".toList
  | .vNull => "<nil>".toList

/-! ### Capability model and per-connection state (types.go) -/

/-- Embedding of `ToolsClientCapabilities`. -/
structure ToolsClientCaps : Type where
  call : Bool
  listOp : Bool
deriving DecidableEq

/-- Embedding of `ResourcesClientCapabilities`. -/
structure ResourcesClientCaps : Type where
  readOp : Bool
  writeOp : Bool
  listOp : Bool
deriving DecidableEq

/-- Embedding of `PromptsClientCapabilities`. -/
structure PromptsClientCaps : Type where
  render : Bool
  listOp : Bool
deriving DecidableEq

/-- Embedding of `ClientCapabilities`. -/
structure ClientCapabilities : Type where
  tools : ToolsClientCaps
  resources : ResourcesClientCaps
  prompts : PromptsClientCaps
deriving DecidableEq

/-- Embedding of the per-category `{supported, types}` entry of
`ServerCapabilities` (the three `*ServerCapabilities` structs share this
shape). -/
structure ServerCapEntry : Type where
  supported : Bool
  types : List Str
deriving DecidableEq

/-- Embedding of `ServerCapabilities`. -/
structure ServerCapabilities : Type where
  tools : ServerCapEntry
  resources : ServerCapEntry
  prompts : ServerCapEntry
deriving DecidableEq

/-- Embedding of `ClientState` (`server.go`): per-connection record of the
negotiated client capabilities, root URI and whether the `initialized`
notification was received. -/
structure ClientState : Type where
  capabilities : ClientCapabilities
  rootURI : Str
  initDone : Bool
deriving DecidableEq

/-- Zero value of `ClientState`, as created by `HandleConnection`. -/
def ClientState.zero : ClientState :=
  { capabilities := ⟨⟨false, false⟩, ⟨false, false, false⟩, ⟨false, false⟩⟩
    rootURI := []
    initDone := false }

/-! ### Registry entries (types.go) -/

/-- Embedding of `Tool`. -/
structure Tool : Type where
  name : Str
  description : Str
  parameters : GoValue
  returns : GoValue
deriving DecidableEq

/-- Embedding of `Resource`. -/
structure Resource : Type where
  uri : Str
  type : Str
  name : Str
  description : Str
  metadata : GoValue
deriving DecidableEq

/-- Embedding of `Prompt`; `varsStored` is the stored `Variables` map. -/
structure Prompt : Type where
  name : Str
  description : Str
  template : Str
  varsStored : List (Str × GoValue)
deriving DecidableEq

/-! ### Messages (types.go) -/

/-- Embedding of `MCPError`. -/
structure MCPError : Type where
  code : Int
  message : Str
deriving DecidableEq

/-- Structured embedding of the JSON `result` payloads this server
produces (`server.go` marshals them with `sonic.Marshal` / raw literals). -/
inductive MCPResult : Type
  | capabilities (c : ServerCapabilities)
  | toolList (ts : List Tool)
  | resourceList (rs : List Resource)
  | promptList (ps : List Prompt)
  | resource (r : Resource)
  | statusSuccess
  | rendered (s : Str)
deriving DecidableEq

/-- Embedding of `InitializeParams`. -/
structure InitializeParams : Type where
  rootURI : Str
  capabilities : ClientCapabilities
deriving DecidableEq

/-- Embedding of `ToolCallParams` (the `timeout` field is never read by the
server and is omitted). -/
structure ToolCallParams : Type where
  name : Str
  arguments : GoValue
deriving DecidableEq

/-- Decoded form of the raw `params` blob of a message: one variant per
shape a handler decodes, `pNone` for an absent field and `pMalformed` for
bytes on which the handler's `Unmarshal` call fails. -/
inductive Params : Type
  | pInit (p : InitializeParams)
  | pToolCall (p : ToolCallParams)
  | pResRead (uri : Str)
  | pResWrite (uri : Str) (content : GoValue)
  | pPromptRender (name : Str) (vars : List (Str × GoValue))
  | pNone
  | pMalformed
deriving DecidableEq

/-- Embedding of `MCPMessage` (the `Conn` field, a transport handle, is
dropped: the per-connection state is passed explicitly instead). -/
structure MCPMessage : Type where
  jsonrpc : Str
  id : Option Int
  method : Str
  params : Params
  result : Option MCPResult
  error : Option MCPError
deriving DecidableEq

/-- Request message as built by the client's `sendRequest`. -/
def reqMsg (i : Option Int) (m : Str) (p : Params) : MCPMessage :=
  { jsonrpc := "2.0".toList, id := i, method := m, params := p
    result := none, error := none }

/-- Success response as built by the handlers (`JSONRPC: "2.0"`, the
request's id, a result, no error). -/
def okResponse (i : Option Int) (r : MCPResult) : MCPMessage :=
  { jsonrpc := "2.0".toList, id := i, method := [], params := .pNone
    result := some r, error := none }

/-- Error response as built by `sendError`. -/
def errResponse (i : Option Int) (code : Int) (message : Str) : MCPMessage :=
  { jsonrpc := "2.0".toList, id := i, method := [], params := .pNone
    result := none, error := some ⟨code, message⟩ }

/-! ### Method name constants (types.go) -/

def methInit : Str := "initialize".toList
def methInitd : Str := "initialized".toList
def methToolsList : Str := "tools/list".toList
def methToolsCall : Str := "tools/call".toList
def methResList : Str := "resources/list".toList
def methResRead : Str := "resources/read".toList
def methResWrite : Str := "resources/write".toList
def methPromptsRender : Str := "prompts/render".toList
def methPromptsList : Str := "prompts/list".toList
def methNotify : Str := "$/notification".toList
def methCancel : Str := "$/cancelRequest".toList

/-! ### String replacement (`strings.ReplaceAll`) and prompt rendering -/

/-- Fuelled core of `strings.ReplaceAll`: scan left to right, replacing
each non-overlapping occurrence of `pat` with `rep`.  The fuel only bounds
the recursion; `replaceAll` supplies enough for the scan to finish. -/
def replaceAllFuel : Nat → Str → Str → Str → Str
  | 0, s, _, _ => s
  | fuel + 1, s, pat, rep =>
    match s with
    | [] => []
    | c :: rest =>
      if pat ≠ [] ∧ pat.isPrefixOf (c :: rest) then
        rep ++ replaceAllFuel fuel (List.drop pat.length (c :: rest)) pat rep
      else
        c :: replaceAllFuel fuel rest pat rep

/-- Embedding of `strings.ReplaceAll(s, pat, rep)` for non-empty `pat`
(every pattern used by the engine is of the form `"{{" + key + "}}"`). -/
def replaceAll (s pat rep : Str) : Str :=
  replaceAllFuel s.length s pat rep

/-- Decides whether `pat` occurs as a contiguous substring of `s`
(Go `strings.Contains`). -/
def hasSub : Str → Str → Bool
  | [], pat => pat.isEmpty
  | s@(_ :: rest), pat => pat.isPrefixOf s || hasSub rest pat

/-- Variable token `"{{" + key + "}}"` as assembled by
`handlePromptsRender`. -/
def varToken (key : Str) : Str :=
  '{' :: '{' :: (key ++ ['}', '}'])

/-- Embedding of the rendering loop of `handlePromptsRender`: starting
from the template, for each supplied variable replace every occurrence of
its token by the string form of its value.  The list order stands for the
iteration order of the Go map range. -/
def renderTemplate (template : Str) (vars : List (Str × GoValue)) : Str :=
  vars.foldl (fun acc kv => replaceAll acc (varToken kv.1) (goFormat kv.2)) template

/-! ### Host session state and handlers (server.go) -/

/-- Tag for each handler registered by `NewServer`; the dispatch table
maps method names to these. -/
inductive HandlerTag : Type
  | hInit
  | hInitd
  | hToolsList
  | hToolsCall
  | hResList
  | hResRead
  | hResWrite
  | hPromptsList
  | hPromptsRender
deriving DecidableEq

/-- Embedding of `Server`: the three registries (Go maps keyed by
name / URI / name) and the handler table.  The `clients` map is modelled
by passing the one relevant connection's `ClientState` explicitly. -/
structure Server : Type where
  tools : List (Str × Tool)
  resources : List (Str × Resource)
  prompts : List (Str × Prompt)
  handlers : List (Str × HandlerTag)
deriving DecidableEq

/-- Handler table built by `NewServer`, one insertion per registration
line, in source order. -/
def defaultHandlers : List (Str × HandlerTag) :=
  [(methInit, HandlerTag.hInit),
   (methInitd, HandlerTag.hInitd),
   (methToolsList, HandlerTag.hToolsList),
   (methToolsCall, HandlerTag.hToolsCall),
   (methResList, HandlerTag.hResList),
   (methResRead, HandlerTag.hResRead),
   (methResWrite, HandlerTag.hResWrite),
   (methPromptsList, HandlerTag.hPromptsList),
   (methPromptsRender, HandlerTag.hPromptsRender)
  ].foldl (fun m kv => mapInsert m kv.1 kv.2) []

/-- Embedding of `NewServer`: empty registries, default handler table. -/
def newServer : Server :=
  { tools := [], resources := [], prompts := [], handlers := defaultHandlers }

/-- Embedding of `Server.RegisterTool`: duplicate name yields the
`already registered` error and no mutation; otherwise the tool is stored
under its name. -/
def registerTool (s : Server) (t : Tool) : Server × Option Str :=
  match mapLookup s.tools t.name with
  | some _ => (s, some ("tool ".toList ++ t.name ++ " already registered".toList))
  | none => ({ s with tools := mapInsert s.tools t.name t }, none)

/-- Embedding of `Server.RegisterResource`. -/
def registerResource (s : Server) (r : Resource) : Server × Option Str :=
  match mapLookup s.resources r.uri with
  | some _ => (s, some ("resource ".toList ++ r.uri ++ " already registered".toList))
  | none => ({ s with resources := mapInsert s.resources r.uri r }, none)

/-- Embedding of `Server.RegisterPrompt`. -/
def registerPrompt (s : Server) (p : Prompt) : Server × Option Str :=
  match mapLookup s.prompts p.name with
  | some _ => (s, some ("prompt ".toList ++ p.name ++ " already registered".toList))
  | none => ({ s with prompts := mapInsert s.prompts p.name p }, none)

/-- Fixed `ServerCapabilities` document returned by the initialize
handler (the raw JSON literal of `server.go`, structured). -/
def fixedServerCaps : ServerCapabilities :=
  { tools := { supported := true, types := ["function".toList] }
    resources := { supported := true, types := ["file".toList, "memory".toList] }
    prompts := { supported := true, types := ["text".toList, "chat".toList] } }

/-- Outcome of one handler invocation: the optional response message, the
server after the call and the connection's state after the call.  An
`Except.error` carries the Go error's text; all error paths of the source
handlers leave both states untouched, which the caller `handleMessage`
reflects by keeping the pre-call states. -/
abbrev HandlerOutcome := Option MCPMessage × Server × ClientState

/-- Embedding of the nine handler bodies of `server.go`, selected by tag.
Each handler first decodes its params (a non-matching variant is the
`Unmarshal` failure path), then acts on the registries / client state
exactly as the source does. -/
def dispatchTag (tag : HandlerTag) (s : Server) (cs : ClientState) (msg : MCPMessage) :
    Except Str HandlerOutcome :=
  match tag with
  | .hInit =>
    match msg.params with
    | .pInit p =>
      .ok (some (okResponse msg.id (.capabilities fixedServerCaps)), s,
        { cs with capabilities := p.capabilities, rootURI := p.rootURI })
    | _ => .error "invalid initialize params".toList
  | .hInitd =>
    .ok (none, s, { cs with initDone := true })
  | .hToolsList =>
    .ok (some (okResponse msg.id (.toolList (s.tools.map Prod.snd))), s, cs)
  | .hToolsCall =>
    match msg.params with
    | .pToolCall p =>
      match mapLookup s.tools p.name with
      | none => .error ("tool ".toList ++ p.name ++ " not found".toList)
      | some _ => .ok (some (okResponse msg.id .statusSuccess), s, cs)
    | _ => .error "invalid tool call params".toList
  | .hResList =>
    .ok (some (okResponse msg.id (.resourceList (s.resources.map Prod.snd))), s, cs)
  | .hResRead =>
    match msg.params with
    | .pResRead uri =>
      match mapLookup s.resources uri with
      | none => .error ("resource ".toList ++ uri ++ " not found".toList)
      | some r => .ok (some (okResponse msg.id (.resource r)), s, cs)
    | _ => .error "invalid resource read params".toList
  | .hResWrite =>
    match msg.params with
    | .pResWrite uri content =>
      match mapLookup s.resources uri with
      | none => .error ("resource ".toList ++ uri ++ " not found".toList)
      | some r =>
        .ok (some (okResponse msg.id .statusSuccess),
          { s with resources := mapInsert s.resources uri { r with metadata := content } },
          cs)
    | _ => .error "invalid resource write params".toList
  | .hPromptsList =>
    .ok (some (okResponse msg.id (.promptList (s.prompts.map Prod.snd))), s, cs)
  | .hPromptsRender =>
    match msg.params with
    | .pPromptRender name vars =>
      match mapLookup s.prompts name with
      | none => .error ("prompt ".toList ++ name ++ " not found".toList)
      | some p =>
        .ok (some (okResponse msg.id (.rendered (renderTemplate p.template vars))), s, cs)
    | _ => .error "invalid prompt render params".toList

/-- Embedding of one iteration of the read loop of `HandleConnection`
after a message has been decoded: look the method up in the handler
table; on a miss send the `-32601` "method not found" error; otherwise run
the handler, turning a handler error into a `-32000` response. -/
def handleMessage (s : Server) (cs : ClientState) (msg : MCPMessage) :
    Option MCPMessage × Server × ClientState :=
  match mapLookup s.handlers msg.method with
  | none => (some (errResponse msg.id (-32601) "method not found".toList), s, cs)
  | some tag =>
    match dispatchTag tag s cs msg with
    | .ok out => out
    | .error e => (some (errResponse msg.id (-32000) e), s, cs)

/-! ### Peer session (client.go): pending-request table and sendRequest -/

/-- Embedding of `Client`: the monotone id counter (`nextID`), the
pending-request table `responses` mapping ids to delivery channels
(channels are opaque tokens drawn from `chanCtr`), and the declared
capabilities. -/
structure Client : Type where
  nextID : Int
  chanCtr : Nat
  responses : List (Int × Nat)
  capabilities : ClientCapabilities
deriving DecidableEq

/-- Possible outcomes of the blocking part of `sendRequest`: the
transport write fails, the caller's context is done (canceled or timed
out) before a response arrives, or a response for the request's id is
delivered on its channel. -/
inductive SendOutcome : Type
  | writeFail (e : Str)
  | ctxDone (e : Str)
  | gotResponse (resp : MCPMessage)
deriving DecidableEq

/-- Embedding of `Client.sendRequest`: allocate the next id, register a
fresh delivery channel for it, write the request, then either fail on the
write, give up on context done, or resolve the delivered response
(translating a populated error field into a `server error`).  The
deferred `delete(c.responses, id)` runs on every path before returning,
so the final table is the registered table with the id's entry removed. -/
def sendRequest (c : Client) (method : Str) (params : Params) (o : SendOutcome) :
    Except Str MCPMessage × Client :=
  let id := c.nextID + 1
  let ch := c.chanCtr
  let registered := mapInsert c.responses id ch
  let cleaned := mapDelete registered id
  let c' : Client := { c with nextID := id, chanCtr := c.chanCtr + 1, responses := cleaned }
  let _msg := reqMsg (some id) method params
  match o with
  | .writeFail e => (.error ("error sending request: ".toList ++ e), c')
  | .ctxDone e => (.error e, c')
  | .gotResponse r =>
    match r.error with
    | some err => (.error ("server error: ".toList ++ err.message), c')
    | none => (.ok r, c')

/-- Table of a client after registering the freshly allocated id, i.e.
the state `sendRequest` holds while blocked waiting for the response. -/
def registeredTable (c : Client) : List (Int × Nat) :=
  mapInsert c.responses (c.nextID + 1) c.chanCtr

/-- Well-formedness of a client: every pending id was allocated by the
counter, hence is at most `nextID`.  This holds for every reachable
client state, since ids are only ever drawn from the monotone counter. -/
def Client.wf (c : Client) : Prop :=
  ∀ e ∈ c.responses, e.1 ≤ c.nextID

instance (c : Client) : Decidable c.wf := by
  unfold Client.wf
  infer_instance

/-! ### Concrete sample data used by witnesses -/

/-- Sample client capabilities with every flag set. -/
def capsAll : ClientCapabilities :=
  ⟨⟨true, true⟩, ⟨true, true, true⟩, ⟨true, true⟩⟩

/-- Sample client capabilities with every flag cleared. -/
def capsNone : ClientCapabilities :=
  ⟨⟨false, false⟩, ⟨false, false, false⟩, ⟨false, false⟩⟩

/-- Sample peer-session state with two pending requests. -/
def sampleClient : Client :=
  { nextID := 5, chanCtr := 2, responses := [(3, 0), (5, 1)], capabilities := capsAll }

/-- Template `"Hello {{name}}"`. -/
def helloTemplate : Str := "Hello ".toList ++ varToken "name".toList

/-- Template `"{{name}} and {{name}}"` with two occurrences of the same
token. -/
def doubleTemplate : Str :=
  varToken "name".toList ++ " and ".toList ++ varToken "name".toList

/-- Sample prompt whose template carries the token of its stored
variable. -/
def samplePrompt : Prompt :=
  { name := "greet".toList
    description := "a greeting".toList
    template := helloTemplate
    varsStored := [("name".toList, GoValue.vStr "Stored".toList)] }

/-- Server obtained from `NewServer` with `samplePrompt` registered. -/
def promptServer : Server := (registerPrompt newServer samplePrompt).1

/-- Sample tool `alpha` used by witnesses. -/
def tool1 : Tool :=
  { name := "alpha".toList, description := "first tool".toList
    parameters := GoValue.vNull, returns := GoValue.vNull }

/-- Sample tool `beta` with a name distinct from `tool1`. -/
def tool2 : Tool :=
  { name := "beta".toList, description := "second tool".toList
    parameters := GoValue.vNull, returns := GoValue.vNull }

/-- Sample resource used by witnesses. -/
def res1 : Resource :=
  { uri := "mem://one".toList, type := "memory".toList, name := "one".toList
    description := "first resource".toList, metadata := GoValue.vNull }

/-- Sample resource with a URI distinct from `res1`. -/
def res2 : Resource :=
  { uri := "mem://two".toList, type := "file".toList, name := "two".toList
    description := "second resource".toList, metadata := GoValue.vNull }

/-- Sample prompt with a name distinct from `samplePrompt`. -/
def prompt2 : Prompt :=
  { name := "other".toList, description := "another prompt".toList
    template := "plain".toList, varsStored := [] }

/-- Server obtained from `NewServer` with `tool1` registered. -/
def toolServer : Server := (registerTool newServer tool1).1

/-- Server obtained from `NewServer` with `res1` registered. -/
def resourceServer : Server := (registerResource newServer res1).1

/-- First initialize request, declaring `capsAll` and root `ws://rootA`. -/
def initMsgA : MCPMessage :=
  reqMsg (some 1) methInit (Params.pInit ⟨"ws://rootA".toList, capsAll⟩)

/-- Second initialize request on the same connection, declaring different
capabilities and a different root. -/
def initMsgB : MCPMessage :=
  reqMsg (some 2) methInit (Params.pInit ⟨"ws://rootB".toList, capsNone⟩)

/-! ### Lemmas about the Go map embedding -/

theorem mapInsert_of_not_mem {κ α : Type} [DecidableEq κ] (m : List (κ × α)) (k : κ)
    (v : α) (h : ∀ e ∈ m, e.1 ≠ k) : mapInsert m k v = m ++ [(k, v)] := by
  induction m with
  | nil => rfl
  | cons e rest ih =>
    have he : e.1 ≠ k := h e (List.mem_cons_self e rest)
    simp only [mapInsert, if_neg he, List.cons_append, List.cons.injEq, true_and]
    exact ih (fun x hx => h x (List.mem_cons_of_mem e hx))

theorem mapDelete_of_not_mem {κ α : Type} [DecidableEq κ] (m : List (κ × α)) (k : κ)
    (h : ∀ e ∈ m, e.1 ≠ k) : mapDelete m k = m := by
  induction m with
  | nil => rfl
  | cons e rest ih =>
    have he : e.1 ≠ k := h e (List.mem_cons_self e rest)
    simp only [mapDelete, if_neg he, List.cons.injEq, true_and]
    exact ih (fun x hx => h x (List.mem_cons_of_mem e hx))

theorem mapDelete_append {κ α : Type} [DecidableEq κ] (m₁ m₂ : List (κ × α)) (k : κ) :
    mapDelete (m₁ ++ m₂) k = mapDelete m₁ k ++ mapDelete m₂ k := by
  induction m₁ with
  | nil => rfl
  | cons e rest ih =>
    by_cases he : e.1 = k <;> simp [mapDelete, he, ih]

theorem countKey_of_not_mem {κ α : Type} [DecidableEq κ] (m : List (κ × α)) (k : κ)
    (h : ∀ e ∈ m, e.1 ≠ k) : countKey m k = 0 := by
  induction m with
  | nil => rfl
  | cons e rest ih =>
    have he : e.1 ≠ k := h e (List.mem_cons_self e rest)
    simp only [countKey, if_neg he, Nat.zero_add]
    exact ih (fun x hx => h x (List.mem_cons_of_mem e hx))

theorem countKey_append {κ α : Type} [DecidableEq κ] (m₁ m₂ : List (κ × α)) (k : κ) :
    countKey (m₁ ++ m₂) k = countKey m₁ k + countKey m₂ k := by
  induction m₁ with
  | nil => simp [countKey]
  | cons e rest ih =>
    by_cases he : e.1 = k <;> simp [countKey, he, ih, Nat.add_assoc]

theorem mapLookup_insert_self {κ α : Type} [DecidableEq κ] (m : List (κ × α)) (k : κ)
    (v : α) : mapLookup (mapInsert m k v) k = some v := by
  induction m with
  | nil => simp [mapInsert, mapLookup]
  | cons e rest ih =>
    by_cases he : e.1 = k <;> simp [mapInsert, mapLookup, he, ih]

theorem mapLookup_insert_of_ne {κ α : Type} [DecidableEq κ] (m : List (κ × α)) (k k' : κ)
    (v : α) (h : k ≠ k') : mapLookup (mapInsert m k v) k' = mapLookup m k' := by
  induction m with
  | nil => simp [mapInsert, mapLookup, h]
  | cons e rest ih =>
    by_cases he : e.1 = k
    · subst he
      simp [mapInsert, mapLookup, h]
    · by_cases he' : e.1 = k' <;> simp [mapInsert, mapLookup, he, he', ih, Ne.symm h]

theorem mem_map_snd_of_mapLookup {κ α : Type} [DecidableEq κ] (m : List (κ × α))
    (k : κ) (v : α) (h : mapLookup m k = some v) : v ∈ m.map Prod.snd := by
  induction m with
  | nil => simp [mapLookup] at h
  | cons e rest ih =>
    by_cases he : e.1 = k
    · simp only [mapLookup, if_pos he, Option.some.injEq] at h
      simp [h]
    · simp only [mapLookup, if_neg he] at h
      simp [ih h]

theorem mapInsert_twice_mem {κ α : Type} [DecidableEq κ] (m : List (κ × α))
    (k₁ k₂ : κ) (v₁ v₂ : α) (hne : k₁ ≠ k₂) :
    v₁ ∈ (mapInsert (mapInsert m k₁ v₁) k₂ v₂).map Prod.snd ∧
    v₂ ∈ (mapInsert (mapInsert m k₁ v₁) k₂ v₂).map Prod.snd := by
  constructor
  · apply mem_map_snd_of_mapLookup _ k₁
    rw [mapLookup_insert_of_ne _ _ _ _ (Ne.symm hne), mapLookup_insert_self]
  · exact mem_map_snd_of_mapLookup _ k₂ _ (mapLookup_insert_self _ _ _)

/-! ### Lemmas about the default handler table -/

theorem lookup_default_init :
    mapLookup defaultHandlers methInit = some HandlerTag.hInit := by decide

theorem lookup_default_initd :
    mapLookup defaultHandlers methInitd = some HandlerTag.hInitd := by decide

theorem lookup_default_toolsCall :
    mapLookup defaultHandlers methToolsCall = some HandlerTag.hToolsCall := by decide

theorem lookup_default_resWrite :
    mapLookup defaultHandlers methResWrite = some HandlerTag.hResWrite := by decide

/-- Only the method name `initialize` is mapped to the initialize handler
by the default table. -/
theorem lookup_default_eq_hInit (m : Str)
    (h : mapLookup defaultHandlers m = some HandlerTag.hInit) : m = methInit := by
  have hd : defaultHandlers =
      [(methInit, HandlerTag.hInit), (methInitd, HandlerTag.hInitd),
       (methToolsList, HandlerTag.hToolsList), (methToolsCall, HandlerTag.hToolsCall),
       (methResList, HandlerTag.hResList), (methResRead, HandlerTag.hResRead),
       (methResWrite, HandlerTag.hResWrite), (methPromptsList, HandlerTag.hPromptsList),
       (methPromptsRender, HandlerTag.hPromptsRender)] := by decide
  rw [hd] at h
  simp only [mapLookup] at h
  split_ifs at h with h1 h2 h3 h4 h5 h6 h7 h8 h9 <;> simp_all

/-- Every handler other than the initialize handler leaves the
connection's negotiated capabilities and root URI untouched. -/
theorem dispatchTag_ok_preserves_negotiation (tag : HandlerTag)
    (h : tag ≠ HandlerTag.hInit) (s : Server) (cs : ClientState) (msg : MCPMessage)
    (out : HandlerOutcome) (hout : dispatchTag tag s cs msg = Except.ok out) :
    out.2.2.capabilities = cs.capabilities ∧ out.2.2.rootURI = cs.rootURI := by
  cases tag with
  | hInit => exact absurd rfl h
  | hInitd => cases hout; exact ⟨rfl, rfl⟩
  | hToolsList => cases hout; exact ⟨rfl, rfl⟩
  | hResList => cases hout; exact ⟨rfl, rfl⟩
  | hPromptsList => cases hout; exact ⟨rfl, rfl⟩
  | hToolsCall =>
    simp only [dispatchTag] at hout
    split at hout
    · split at hout
      · simp at hout
      · cases hout; exact ⟨rfl, rfl⟩
    · simp at hout
  | hResRead =>
    simp only [dispatchTag] at hout
    split at hout
    · split at hout
      · simp at hout
      · cases hout; exact ⟨rfl, rfl⟩
    · simp at hout
  | hResWrite =>
    simp only [dispatchTag] at hout
    split at hout
    · split at hout
      · simp at hout
      · cases hout; exact ⟨rfl, rfl⟩
    · simp at hout
  | hPromptsRender =>
    simp only [dispatchTag] at hout
    split at hout
    · split at hout
      · simp at hout
      · cases hout; exact ⟨rfl, rfl⟩
    · simp at hout

/-! ### C1 -/

/-- C1: for every call to the peer session's `sendRequest`, whatever the
outcome (a response delivered on the channel, context canceled or timed
out, or the transport write failing), the pending-request entry
registered for the allocated id `nextID + 1` is present exactly once in
the table while the call is blocked and is removed exactly once before
`sendRequest` returns, so the responses table after the call equals the
table before it. -/
theorem sendRequest_pending_entry_removed (c : Client) (m : Str) (p : Params)
    (o : SendOutcome) (hwf : c.wf) :
    (sendRequest c m p o).2.responses = c.responses ∧
    countKey (registeredTable c) (c.nextID + 1) = 1 ∧
    countKey ((sendRequest c m p o).2.responses) (c.nextID + 1) = 0 := by
  have hne : ∀ e ∈ c.responses, e.1 ≠ c.nextID + 1 := by
    intro e he
    have := hwf e he
    omega
  have hins : registeredTable c = c.responses ++ [(c.nextID + 1, c.chanCtr)] :=
    mapInsert_of_not_mem _ _ _ hne
  have hdel : mapDelete (registeredTable c) (c.nextID + 1) = c.responses := by
    rw [hins, mapDelete_append, mapDelete_of_not_mem _ _ hne]
    simp [mapDelete]
  have hstate : (sendRequest c m p o).2.responses
      = mapDelete (registeredTable c) (c.nextID + 1) := by
    cases o with
    | writeFail e => rfl
    | ctxDone e => rfl
    | gotResponse r => cases hr : r.error <;> simp [sendRequest, registeredTable, hr]
  refine ⟨hstate.trans hdel, ?_, ?_⟩
  · rw [hins, countKey_append, countKey_of_not_mem _ _ hne]
    simp [countKey]
  · rw [hstate.trans hdel]
    exact countKey_of_not_mem _ _ hne

/-- Witness for C1 at a concrete client state and a delivered-response
outcome. -/
theorem sendRequest_pending_entry_removed_witness :
    (sendRequest sampleClient methToolsList Params.pNone
        (SendOutcome.gotResponse (okResponse (some 6) MCPResult.statusSuccess))).2.responses
      = sampleClient.responses ∧
    countKey (registeredTable sampleClient) (sampleClient.nextID + 1) = 1 ∧
    countKey ((sendRequest sampleClient methToolsList Params.pNone
        (SendOutcome.gotResponse (okResponse (some 6) MCPResult.statusSuccess))).2.responses)
      (sampleClient.nextID + 1) = 0 :=
  sendRequest_pending_entry_removed sampleClient methToolsList Params.pNone
    (SendOutcome.gotResponse (okResponse (some 6) MCPResult.statusSuccess)) (by decide)

/-! ### Lemmas about replaceAll and renderTemplate -/

theorem replaceAllFuel_of_not_hasSub (fuel : Nat) (s pat rep : Str)
    (hlen : s.length ≤ fuel) (h : hasSub s pat = false) :
    replaceAllFuel fuel s pat rep = s := by
  induction fuel generalizing s with
  | zero =>
    rfl
  | succ n ih =>
    cases s with
    | nil => rfl
    | cons c rest =>
      have hp : pat.isPrefixOf (c :: rest) = false := by
        cases hq : pat.isPrefixOf (c :: rest)
        · rfl
        · simp [hasSub, hq] at h
      have hr : hasSub rest pat = false := by
        simp only [hasSub, hp, Bool.false_or] at h
        exact h
      have hcond : ¬(pat ≠ [] ∧ pat.isPrefixOf (c :: rest)) := by
        simp [hp]
      simp only [replaceAllFuel, if_neg hcond]
      have hlen' : rest.length ≤ n := by
        simpa using Nat.lt_succ_iff.mp (Nat.lt_of_lt_of_le (Nat.lt_succ_self _)
          (by simpa [List.length_cons] using hlen))
      rw [ih rest hlen' hr]

/-- Replacement is the identity when the pattern does not occur. -/
theorem replaceAll_of_not_hasSub (s pat rep : Str) (h : hasSub s pat = false) :
    replaceAll s pat rep = s :=
  replaceAllFuel_of_not_hasSub s.length s pat rep le_rfl h

/-- Rendering leaves a template verbatim when none of the supplied
variables' tokens occur in it. -/
theorem renderTemplate_of_no_tokens (t : Str) (vars : List (Str × GoValue))
    (h : ∀ kv ∈ vars, hasSub t (varToken kv.1) = false) :
    renderTemplate t vars = t := by
  induction vars with
  | nil => rfl
  | cons kv rest ih =>
    show List.foldl _ _ (kv :: rest) = t
    simp only [List.foldl_cons]
    rw [replaceAll_of_not_hasSub t _ _ (h kv (List.mem_cons_self kv rest))]
    exact ih (fun kv' h' => h kv' (List.mem_cons_of_mem kv h'))

/-! ### C2 -/

/-- C2: for every registered prompt, `handlePromptsRender` returns the
prompt's template rendered by replacing, for each supplied variable key
in iteration order, every occurrence of the token `"{{" + key + "}}"` by
the string form of the value, with no escaping; a token whose key is not
supplied stays verbatim.  In particular `"Hello {{name}}"` with
`{"name": "World"}` renders `"Hello World"`, and the same template with
no supplied variables renders `"Hello {{name}}"` unchanged. -/
theorem handlePromptsRender_literal_substitution :
    (∀ (s : Server) (cs : ClientState) (msg : MCPMessage) (name : Str)
        (vars : List (Str × GoValue)) (p : Prompt),
      msg.params = Params.pPromptRender name vars →
      mapLookup s.prompts name = some p →
      dispatchTag HandlerTag.hPromptsRender s cs msg
        = .ok (some (okResponse msg.id (.rendered (renderTemplate p.template vars))), s, cs)) ∧
    (∀ (t k : Str) (v : GoValue),
      renderTemplate t [(k, v)] = replaceAll t (varToken k) (goFormat v)) ∧
    (∀ t : Str, renderTemplate t [] = t) ∧
    renderTemplate helloTemplate [("name".toList, GoValue.vStr "World".toList)]
      = "Hello World".toList ∧
    renderTemplate helloTemplate [] = helloTemplate ∧
    renderTemplate doubleTemplate [("name".toList, GoValue.vStr "World".toList)]
      = "World and World".toList ∧
    renderTemplate helloTemplate [("other".toList, GoValue.vStr "x".toList)]
      = helloTemplate := by
  refine ⟨?_, ?_, ?_, ?_, ?_, ?_, ?_⟩
  · intro s cs msg name vars p hparams hlook
    simp [dispatchTag, hparams, hlook]
  · intro t k v
    rfl
  · intro t
    rfl
  · decide
  · rfl
  · decide
  · decide

/-- Witness for C2: rendering the registered sample prompt with
`{"name": "World"}` yields the response carrying `"Hello World"`. -/
theorem handlePromptsRender_literal_substitution_witness :
    dispatchTag HandlerTag.hPromptsRender promptServer ClientState.zero
        (reqMsg (some 1) methPromptsRender
          (Params.pPromptRender "greet".toList
            [("name".toList, GoValue.vStr "World".toList)]))
      = .ok (some (okResponse (some 1)
          (.rendered (renderTemplate samplePrompt.template
            [("name".toList, GoValue.vStr "World".toList)]))),
          promptServer, ClientState.zero) :=
  handlePromptsRender_literal_substitution.1 promptServer ClientState.zero
    (reqMsg (some 1) methPromptsRender
      (Params.pPromptRender "greet".toList
        [("name".toList, GoValue.vStr "World".toList)]))
    "greet".toList [("name".toList, GoValue.vStr "World".toList)] samplePrompt
    rfl (by decide)

/-! ### C9 -/

/-- C9: `handlePromptsRender` substitutes only the variables supplied in
the request's params; the `Variables` map stored in the registered prompt
is never consulted.  With no supplied variables the template is returned
verbatim, and two registered prompts with the same template render
identically whatever their stored variables. -/
theorem handlePromptsRender_ignores_stored_variables :
    (∀ (s : Server) (cs : ClientState) (msg : MCPMessage) (name : Str) (p : Prompt),
      msg.params = Params.pPromptRender name [] →
      mapLookup s.prompts name = some p →
      dispatchTag HandlerTag.hPromptsRender s cs msg
        = .ok (some (okResponse msg.id (.rendered p.template)), s, cs)) ∧
    (∀ (s₁ s₂ : Server) (cs : ClientState) (msg : MCPMessage) (name : Str)
        (vars : List (Str × GoValue)) (p₁ p₂ : Prompt),
      msg.params = Params.pPromptRender name vars →
      mapLookup s₁.prompts name = some p₁ →
      mapLookup s₂.prompts name = some p₂ →
      p₁.template = p₂.template →
      (dispatchTag HandlerTag.hPromptsRender s₁ cs msg).map (fun out => out.1)
        = (dispatchTag HandlerTag.hPromptsRender s₂ cs msg).map (fun out => out.1)) := by
  constructor
  · intro s cs msg name p hparams hlook
    simp [dispatchTag, hparams, hlook]
    rfl
  · intro s₁ s₂ cs msg name vars p₁ p₂ hparams h₁ h₂ htmpl
    simp [dispatchTag, hparams, h₁, h₂, htmpl, Except.map]

/-- Witness for C9: the sample prompt is registered with a stored value
for `name`, yet a render request supplying no variables returns the
template with its token untouched. -/
theorem handlePromptsRender_ignores_stored_variables_witness :
    dispatchTag HandlerTag.hPromptsRender promptServer ClientState.zero
        (reqMsg (some 2) methPromptsRender (Params.pPromptRender "greet".toList []))
      = .ok (some (okResponse (some 2) (.rendered samplePrompt.template)),
          promptServer, ClientState.zero) :=
  handlePromptsRender_ignores_stored_variables.1 promptServer ClientState.zero
    (reqMsg (some 2) methPromptsRender (Params.pPromptRender "greet".toList []))
    "greet".toList samplePrompt rfl (by decide)

/-! ### C3 -/

/-- C3: for each of the three registries, registering a second entry
under an already-present key returns the duplicate-key error and leaves
the registry unchanged (the first entry is retained), while registering
two entries with distinct keys both succeed and both appear in the list
subsequently returned by the corresponding list handler. -/
theorem register_duplicate_key_rejected :
    (∀ (s : Server) (t u : Tool), mapLookup s.tools t.name = some u →
      registerTool s t
        = (s, some ("tool ".toList ++ t.name ++ " already registered".toList))) ∧
    (∀ (s : Server) (t₁ t₂ : Tool), t₁.name ≠ t₂.name →
      mapLookup s.tools t₁.name = none → mapLookup s.tools t₂.name = none →
      (registerTool s t₁).2 = none ∧
      (registerTool (registerTool s t₁).1 t₂).2 = none ∧
      t₁ ∈ (registerTool (registerTool s t₁).1 t₂).1.tools.map Prod.snd ∧
      t₂ ∈ (registerTool (registerTool s t₁).1 t₂).1.tools.map Prod.snd) ∧
    (∀ (s : Server) (r u : Resource), mapLookup s.resources r.uri = some u →
      registerResource s r
        = (s, some ("resource ".toList ++ r.uri ++ " already registered".toList))) ∧
    (∀ (s : Server) (r₁ r₂ : Resource), r₁.uri ≠ r₂.uri →
      mapLookup s.resources r₁.uri = none → mapLookup s.resources r₂.uri = none →
      (registerResource s r₁).2 = none ∧
      (registerResource (registerResource s r₁).1 r₂).2 = none ∧
      r₁ ∈ (registerResource (registerResource s r₁).1 r₂).1.resources.map Prod.snd ∧
      r₂ ∈ (registerResource (registerResource s r₁).1 r₂).1.resources.map Prod.snd) ∧
    (∀ (s : Server) (p u : Prompt), mapLookup s.prompts p.name = some u →
      registerPrompt s p
        = (s, some ("prompt ".toList ++ p.name ++ " already registered".toList))) ∧
    (∀ (s : Server) (p₁ p₂ : Prompt), p₁.name ≠ p₂.name →
      mapLookup s.prompts p₁.name = none → mapLookup s.prompts p₂.name = none →
      (registerPrompt s p₁).2 = none ∧
      (registerPrompt (registerPrompt s p₁).1 p₂).2 = none ∧
      p₁ ∈ (registerPrompt (registerPrompt s p₁).1 p₂).1.prompts.map Prod.snd ∧
      p₂ ∈ (registerPrompt (registerPrompt s p₁).1 p₂).1.prompts.map Prod.snd) ∧
    (∀ (s : Server) (cs : ClientState) (msg : MCPMessage),
      dispatchTag HandlerTag.hToolsList s cs msg
        = .ok (some (okResponse msg.id (.toolList (s.tools.map Prod.snd))), s, cs)) := by
  refine ⟨?_, ?_, ?_, ?_, ?_, ?_, ?_⟩
  · intro s t u h
    simp [registerTool, h]
  · intro s t₁ t₂ hne h₁ h₂
    have e₁ : registerTool s t₁ = ({ s with tools := mapInsert s.tools t₁.name t₁ }, none) := by
      simp [registerTool, h₁]
    have h₂' : mapLookup (mapInsert s.tools t₁.name t₁) t₂.name = none := by
      rw [mapLookup_insert_of_ne _ _ _ _ hne]; exact h₂
    have e₂ : registerTool { s with tools := mapInsert s.tools t₁.name t₁ } t₂
        = ({ s with tools := mapInsert (mapInsert s.tools t₁.name t₁) t₂.name t₂ }, none) := by
      simp [registerTool, h₂']
    rw [e₁]
    simp only [e₂]
    exact ⟨trivial, trivial, (mapInsert_twice_mem s.tools t₁.name t₂.name t₁ t₂ hne).1,
      (mapInsert_twice_mem s.tools t₁.name t₂.name t₁ t₂ hne).2⟩
  · intro s r u h
    simp [registerResource, h]
  · intro s r₁ r₂ hne h₁ h₂
    have e₁ : registerResource s r₁
        = ({ s with resources := mapInsert s.resources r₁.uri r₁ }, none) := by
      simp [registerResource, h₁]
    have h₂' : mapLookup (mapInsert s.resources r₁.uri r₁) r₂.uri = none := by
      rw [mapLookup_insert_of_ne _ _ _ _ hne]; exact h₂
    have e₂ : registerResource { s with resources := mapInsert s.resources r₁.uri r₁ } r₂
        = ({ s with resources := mapInsert (mapInsert s.resources r₁.uri r₁) r₂.uri r₂ },
          none) := by
      simp [registerResource, h₂']
    rw [e₁]
    simp only [e₂]
    exact ⟨trivial, trivial, (mapInsert_twice_mem s.resources r₁.uri r₂.uri r₁ r₂ hne).1,
      (mapInsert_twice_mem s.resources r₁.uri r₂.uri r₁ r₂ hne).2⟩
  · intro s p u h
    simp [registerPrompt, h]
  · intro s p₁ p₂ hne h₁ h₂
    have e₁ : registerPrompt s p₁
        = ({ s with prompts := mapInsert s.prompts p₁.name p₁ }, none) := by
      simp [registerPrompt, h₁]
    have h₂' : mapLookup (mapInsert s.prompts p₁.name p₁) p₂.name = none := by
      rw [mapLookup_insert_of_ne _ _ _ _ hne]; exact h₂
    have e₂ : registerPrompt { s with prompts := mapInsert s.prompts p₁.name p₁ } p₂
        = ({ s with prompts := mapInsert (mapInsert s.prompts p₁.name p₁) p₂.name p₂ },
          none) := by
      simp [registerPrompt, h₂']
    rw [e₁]
    simp only [e₂]
    exact ⟨trivial, trivial, (mapInsert_twice_mem s.prompts p₁.name p₂.name p₁ p₂ hne).1,
      (mapInsert_twice_mem s.prompts p₁.name p₂.name p₁ p₂ hne).2⟩
  · intro s cs msg
    rfl

/-- Witness for C3: on a server holding `tool1`, re-registering `tool1`
fails with the duplicate error and registering the distinct `tool2`
succeeds with both tools listed. -/
theorem register_duplicate_key_rejected_witness :
    registerTool toolServer tool1
      = (toolServer,
        some ("tool ".toList ++ tool1.name ++ " already registered".toList)) ∧
    (registerTool newServer tool1).2 = none ∧
    (registerTool (registerTool newServer tool1).1 tool2).2 = none ∧
    tool1 ∈ (registerTool (registerTool newServer tool1).1 tool2).1.tools.map Prod.snd ∧
    tool2 ∈ (registerTool (registerTool newServer tool1).1 tool2).1.tools.map Prod.snd :=
  ⟨register_duplicate_key_rejected.1 toolServer tool1 tool1 (by decide),
    register_duplicate_key_rejected.2.1 newServer tool1 tool2 (by decide)
      (by decide) (by decide)⟩

/-! ### C4 -/

/-- C4: `handleResourcesWrite` on an absent URI fails with the not-found
error and leaves the whole server state (all three registries) unchanged;
on a present URI it overwrites only the metadata field of that resource,
keeping its `uri`, `type`, `name` and `description` and every other
registry entry intact. -/
theorem handleResourcesWrite_metadata_only :
    (∀ (s : Server) (cs : ClientState) (msg : MCPMessage) (uri : Str) (content : GoValue),
      s.handlers = defaultHandlers → msg.method = methResWrite →
      msg.params = Params.pResWrite uri content →
      mapLookup s.resources uri = none →
      handleMessage s cs msg
        = (some (errResponse msg.id (-32000)
            ("resource ".toList ++ uri ++ " not found".toList)), s, cs)) ∧
    (∀ (s : Server) (cs : ClientState) (msg : MCPMessage) (uri : Str) (content : GoValue)
        (r : Resource),
      s.handlers = defaultHandlers → msg.method = methResWrite →
      msg.params = Params.pResWrite uri content →
      mapLookup s.resources uri = some r →
      handleMessage s cs msg
        = (some (okResponse msg.id .statusSuccess),
          { s with resources := mapInsert s.resources uri (Resource.mk r.uri r.type r.name r.description content) }, cs) ∧
      mapLookup (mapInsert s.resources uri (Resource.mk r.uri r.type r.name r.description content))
          uri = some (Resource.mk r.uri r.type r.name r.description content) ∧
      (∀ u : Str, u ≠ uri →
        mapLookup (mapInsert s.resources uri
            (Resource.mk r.uri r.type r.name r.description content)) u
          = mapLookup s.resources u)) := by
  constructor
  · intro s cs msg uri content hh hm hp hlk
    simp [handleMessage, hh, hm, lookup_default_resWrite, dispatchTag, hp, hlk]
  · intro s cs msg uri content r hh hm hp hlk
    refine ⟨?_, mapLookup_insert_self _ _ _, ?_⟩
    · simp [handleMessage, hh, hm, lookup_default_resWrite, dispatchTag, hp, hlk]
    · intro u hu
      exact mapLookup_insert_of_ne _ _ _ _ (Ne.symm hu)

/-- Witness for C4: writing new metadata to the registered `res1`
succeeds, replaces only its metadata and leaves the URI `mem://two`
unaffected; the instantiated not-found case fails on `mem://two`. -/
theorem handleResourcesWrite_metadata_only_witness :
    handleMessage resourceServer ClientState.zero
        (reqMsg (some 4) methResWrite
          (Params.pResWrite "mem://one".toList (GoValue.vStr "fresh".toList)))
      = (some (okResponse (some 4) .statusSuccess),
        { resourceServer with resources := mapInsert resourceServer.resources "mem://one".toList (Resource.mk res1.uri res1.type res1.name res1.description (GoValue.vStr "fresh".toList)) }, ClientState.zero) ∧
    mapLookup (mapInsert resourceServer.resources "mem://one".toList
        (Resource.mk res1.uri res1.type res1.name res1.description (GoValue.vStr "fresh".toList)))
        "mem://two".toList
      = mapLookup resourceServer.resources "mem://two".toList ∧
    handleMessage resourceServer ClientState.zero
        (reqMsg (some 5) methResWrite
          (Params.pResWrite "mem://two".toList (GoValue.vStr "fresh".toList)))
      = (some (errResponse (some 5) (-32000)
          ("resource ".toList ++ "mem://two".toList ++ " not found".toList)),
        resourceServer, ClientState.zero) :=
  ⟨(handleResourcesWrite_metadata_only.2 resourceServer ClientState.zero
      (reqMsg (some 4) methResWrite
        (Params.pResWrite "mem://one".toList (GoValue.vStr "fresh".toList)))
      "mem://one".toList (GoValue.vStr "fresh".toList) res1
      rfl rfl rfl (by decide)).1,
    (handleResourcesWrite_metadata_only.2 resourceServer ClientState.zero
      (reqMsg (some 4) methResWrite
        (Params.pResWrite "mem://one".toList (GoValue.vStr "fresh".toList)))
      "mem://one".toList (GoValue.vStr "fresh".toList) res1
      rfl rfl rfl (by decide)).2.2 "mem://two".toList (by decide),
    handleResourcesWrite_metadata_only.1 resourceServer ClientState.zero
      (reqMsg (some 5) methResWrite
        (Params.pResWrite "mem://two".toList (GoValue.vStr "fresh".toList)))
      "mem://two".toList (GoValue.vStr "fresh".toList)
      rfl rfl rfl (by decide)⟩

/-! ### C5 -/

/-- C5: an inbound message whose method has no entry in the handler table
produces an error response with code `-32601` and message
`"method not found"`, echoing the inbound id, and leaves the whole server
state (hence every registry) and the connection state unchanged. -/
theorem unknown_method_not_found (s : Server) (cs : ClientState) (msg : MCPMessage)
    (h : mapLookup s.handlers msg.method = none) :
    handleMessage s cs msg
      = (some (errResponse msg.id (-32601) "method not found".toList), s, cs) := by
  simp [handleMessage, h]

/-- Witness for C5 at a made-up method name on a fresh server. -/
theorem unknown_method_not_found_witness :
    handleMessage newServer ClientState.zero
        (reqMsg (some 7) "graph/query".toList Params.pNone)
      = (some (errResponse (some 7) (-32601) "method not found".toList),
        newServer, ClientState.zero) :=
  unknown_method_not_found newServer ClientState.zero
    (reqMsg (some 7) "graph/query".toList Params.pNone) (by decide)

/-! ### C6 -/

/-- C6: every well-formed initialize request is answered with a success
response whose result is the fixed `ServerCapabilities` document
(`tools` supported with types `["function"]`, `resources` supported with
types `["file", "memory"]`, `prompts` supported with types
`["text", "chat"]`), and every initialized notification produces no
response message. -/
theorem initialize_fixed_capabilities :
    (∀ (s : Server) (cs : ClientState) (msg : MCPMessage) (p : InitializeParams),
      s.handlers = defaultHandlers → msg.method = methInit →
      msg.params = Params.pInit p →
      handleMessage s cs msg
        = (some (okResponse msg.id (.capabilities fixedServerCaps)), s,
          { cs with capabilities := p.capabilities, rootURI := p.rootURI })) ∧
    fixedServerCaps.tools.supported = true ∧
    fixedServerCaps.tools.types = ["function".toList] ∧
    fixedServerCaps.resources.supported = true ∧
    fixedServerCaps.resources.types = ["file".toList, "memory".toList] ∧
    fixedServerCaps.prompts.supported = true ∧
    fixedServerCaps.prompts.types = ["text".toList, "chat".toList] ∧
    (∀ (s : Server) (cs : ClientState) (msg : MCPMessage),
      s.handlers = defaultHandlers → msg.method = methInitd →
      handleMessage s cs msg = (none, s, { cs with initDone := true })) := by
  refine ⟨?_, rfl, rfl, rfl, rfl, rfl, rfl, ?_⟩
  · intro s cs msg p hh hm hp
    simp [handleMessage, hh, hm, lookup_default_init, dispatchTag, hp]
  · intro s cs msg hh hm
    simp [handleMessage, hh, hm, lookup_default_initd, dispatchTag]

/-- Witness for C6: the full handshake pair on a fresh server. -/
theorem initialize_fixed_capabilities_witness :
    handleMessage newServer ClientState.zero initMsgA
      = (some (okResponse (some 1) (.capabilities fixedServerCaps)), newServer,
        { ClientState.zero with capabilities := capsAll, rootURI := "ws://rootA".toList }) ∧
    handleMessage newServer
        { ClientState.zero with capabilities := capsAll, rootURI := "ws://rootA".toList }
        (reqMsg none methInitd Params.pNone)
      = (none, newServer,
        { ClientState.zero with capabilities := capsAll, rootURI := "ws://rootA".toList, initDone := true }) :=
  ⟨initialize_fixed_capabilities.1 newServer ClientState.zero initMsgA
      ⟨"ws://rootA".toList, capsAll⟩ rfl rfl rfl,
    initialize_fixed_capabilities.2.2.2.2.2.2.2 newServer
      { ClientState.zero with capabilities := capsAll, rootURI := "ws://rootA".toList }
      (reqMsg none methInitd Params.pNone) rfl rfl⟩

/-! ### C7 -/

/-- C7: a well-formed tools/call request for a name absent from the tool
registry fails with the not-found error; for a present name it returns
the fixed `status: success` acknowledgment, independently of the tool and
its arguments, and leaves the server and connection state unchanged. -/
theorem toolsCall_fixed_ack :
    (∀ (s : Server) (cs : ClientState) (msg : MCPMessage) (p : ToolCallParams),
      s.handlers = defaultHandlers → msg.method = methToolsCall →
      msg.params = Params.pToolCall p →
      mapLookup s.tools p.name = none →
      handleMessage s cs msg
        = (some (errResponse msg.id (-32000)
            ("tool ".toList ++ p.name ++ " not found".toList)), s, cs)) ∧
    (∀ (s : Server) (cs : ClientState) (msg : MCPMessage) (p : ToolCallParams) (t : Tool),
      s.handlers = defaultHandlers → msg.method = methToolsCall →
      msg.params = Params.pToolCall p →
      mapLookup s.tools p.name = some t →
      handleMessage s cs msg
        = (some (okResponse msg.id .statusSuccess), s, cs)) := by
  constructor
  · intro s cs msg p hh hm hp hlk
    simp [handleMessage, hh, hm, lookup_default_toolsCall, dispatchTag, hp, hlk]
  · intro s cs msg p t hh hm hp hlk
    simp [handleMessage, hh, hm, lookup_default_toolsCall, dispatchTag, hp, hlk]

/-- Witness for C7: calling the registered `alpha` yields the fixed
acknowledgment with the server unchanged; calling the unregistered
`beta` fails with the not-found error. -/
theorem toolsCall_fixed_ack_witness :
    handleMessage toolServer ClientState.zero
        (reqMsg (some 8) methToolsCall
          (Params.pToolCall ⟨"alpha".toList, GoValue.vNull⟩))
      = (some (okResponse (some 8) .statusSuccess), toolServer, ClientState.zero) ∧
    handleMessage toolServer ClientState.zero
        (reqMsg (some 9) methToolsCall
          (Params.pToolCall ⟨"beta".toList, GoValue.vNull⟩))
      = (some (errResponse (some 9) (-32000)
          ("tool ".toList ++ "beta".toList ++ " not found".toList)),
        toolServer, ClientState.zero) :=
  ⟨toolsCall_fixed_ack.2 toolServer ClientState.zero
      (reqMsg (some 8) methToolsCall (Params.pToolCall ⟨"alpha".toList, GoValue.vNull⟩))
      ⟨"alpha".toList, GoValue.vNull⟩ tool1 rfl rfl rfl (by decide),
    toolsCall_fixed_ack.1 toolServer ClientState.zero
      (reqMsg (some 9) methToolsCall (Params.pToolCall ⟨"beta".toList, GoValue.vNull⟩))
      ⟨"beta".toList, GoValue.vNull⟩ rfl rfl rfl (by decide)⟩

/-! ### C8 -/

/-- Counterexample to C8 as stated: after a first initialize request has
recorded `capsAll` for the connection, a second initialize request with
different parameters changes the stored capabilities — the handler
overwrites them unconditionally, so they are not immutable for the
remainder of the connection. -/
theorem second_init_overwrites_capabilities :
    ((handleMessage newServer
        ((handleMessage newServer ClientState.zero initMsgA).2.2) initMsgB).2.2).capabilities
      ≠ ((handleMessage newServer ClientState.zero initMsgA).2.2).capabilities := by
  decide

/-- C8 (amended): once an initialize request has recorded the client's
capabilities and root URI in its `ClientState`, no subsequent message
OTHER THAN another initialize request changes them; a second initialize
request overwrites them with its own parameters. -/
theorem non_init_preserves_negotiated_state (s : Server) (cs : ClientState)
    (msg : MCPMessage) (hh : s.handlers = defaultHandlers)
    (hm : msg.method ≠ methInit) :
    ((handleMessage s cs msg).2.2).capabilities = cs.capabilities ∧
    ((handleMessage s cs msg).2.2).rootURI = cs.rootURI := by
  rcases hl : mapLookup s.handlers msg.method with _ | tag
  · simp [handleMessage, hl]
  · have htag : tag ≠ HandlerTag.hInit := by
      intro he
      subst he
      exact hm (lookup_default_eq_hInit msg.method (hh ▸ hl))
    rcases hd : dispatchTag tag s cs msg with e | out
    · simp [handleMessage, hl, hd]
    · have := dispatchTag_ok_preserves_negotiation tag htag s cs msg out hd
      simpa [handleMessage, hl, hd] using this

/-- Witness for the amended C8: a tools/list request leaves a negotiated
connection state untouched. -/
theorem non_init_preserves_negotiated_state_witness :
    ((handleMessage newServer
        { capabilities := capsAll, rootURI := "ws://rootA".toList, initDone := true }
        (reqMsg (some 3) methToolsList Params.pNone)).2.2).capabilities = capsAll ∧
    ((handleMessage newServer
        { capabilities := capsAll, rootURI := "ws://rootA".toList, initDone := true }
        (reqMsg (some 3) methToolsList Params.pNone)).2.2).rootURI
      = "ws://rootA".toList :=
  non_init_preserves_negotiated_state newServer
    { capabilities := capsAll, rootURI := "ws://rootA".toList, initDone := true }
    (reqMsg (some 3) methToolsList Params.pNone) rfl (by decide)

/-! ### C10 -/

/-- C10: the handler table of a server built by `NewServer` has entries
for exactly the nine request methods, in registration order, and none for
the control methods `$/notification` and `$/cancelRequest`; a message
carrying either control method therefore receives the `-32601`
method-not-found error response and changes no state. -/
theorem default_handler_table_exact :
    newServer.handlers.map Prod.fst
      = [methInit, methInitd, methToolsList, methToolsCall, methResList,
        methResRead, methResWrite, methPromptsList, methPromptsRender] ∧
    mapLookup newServer.handlers methNotify = none ∧
    mapLookup newServer.handlers methCancel = none ∧
    (∀ (cs : ClientState) (i : Option Int) (p : Params),
      handleMessage newServer cs (reqMsg i methNotify p)
        = (some (errResponse i (-32601) "method not found".toList), newServer, cs)) ∧
    (∀ (cs : ClientState) (i : Option Int) (p : Params),
      handleMessage newServer cs (reqMsg i methCancel p)
        = (some (errResponse i (-32601) "method not found".toList), newServer, cs)) := by
  have hn : mapLookup newServer.handlers methNotify = none := by decide
  have hc : mapLookup newServer.handlers methCancel = none := by decide
  refine ⟨by decide, hn, hc, ?_, ?_⟩
  · intro cs i p
    simp [handleMessage, reqMsg, hn]
  · intro cs i p
    simp [handleMessage, reqMsg, hc]

end Nexus
